import Mathlib

set_option maxRecDepth 1000000

/-!
Formal model of the metrics derivation and aggregation pipeline of
`src/backend/app.py` (PerformancePulseDashboard).

The embedding is shallow:
* a pandas cell is a `Value` (a rational number, a string, or NaN — the
  missing-value marker); rationals stand in for the exact values carried by
  the program (binary-float rounding is outside the scope of every claim
  settled here);
* a `Table` is a header (column names) plus rows of cells, the in-memory
  dataframe;
* the flat-file store (`employee_performance_200.csv`, `processed_data.csv`)
  is a `Store`: a header line plus data lines, each line a list of cell
  strings; `toStore` models `df.to_csv(..., index=False)` and `fromStore`
  models `pd.read_csv` including its per-column type inference (a column
  whose non-empty cells all parse as numbers is numeric, empty cells become
  NaN; otherwise every non-empty cell stays a string);
* Python exceptions are the `PyErr` error monad of `Except`.
-/

namespace PerfPulse

/-- A pandas cell: a (rational) number, a string, or the NaN missing-value
marker. -/
inductive Value where
  | num (q : ℚ)
  | str (s : String)
  | nan
deriving DecidableEq, Repr

/-- An in-memory dataframe: column names plus rows of cells. -/
structure Table where
  header : List String
  rows : List (List Value)
deriving DecidableEq, Repr

/-- A flat CSV file: the header line followed by one line per record, each
line already split into its cell strings. -/
abbrev Store := List (List String)

/-- Python exceptions raised by the pipeline, plus the spec's own error
vocabulary. `undefinedAggregate` is modelled from the spec: the spec's §7
taxonomy names an `UndefinedAggregate` error for aggregation over an empty
record set; no such error exists anywhere in `src/`, the constructor exists
only so that statements can compare what the code raises against it. -/
inductive PyErr where
  | fileNotFound (s : String)
  | keyError (s : String)
  | typeError (s : String)
  | valueError (s : String)
  | undefinedAggregate
deriving DecidableEq, Repr

deriving instance DecidableEq for Except

/-! ### Decimal printing and parsing (pandas cell serialization) -/

/-- The character of a single decimal digit. -/
def digitChar (n : Nat) : Char := Char.ofNat (48 + n)

/-- The decimal digits of `n`, least significant first. -/
def natToRevDigits (n : Nat) : List Char :=
  if h : n < 10 then [digitChar n]
  else digitChar (n % 10) :: natToRevDigits (n / 10)
termination_by n
decreasing_by
  exact Nat.div_lt_self (by omega) (by omega)

/-- The decimal digits of `n`, most significant first. -/
def showNatDigits (n : Nat) : List Char := (natToRevDigits n).reverse

/-- Decimal representation of a natural number. -/
def showNat (n : Nat) : String := String.mk (showNatDigits n)

/-- Value of a digit list, least significant first. -/
def valRev : List Char → Nat
  | [] => 0
  | c :: r => (c.toNat - 48) + 10 * valRev r

/-- Value of a digit list, most significant first. -/
def digitsVal (l : List Char) : Nat := valRev l.reverse

/-- Left-pad a digit list with zeros up to width `k`. -/
def padDigits (k : Nat) (l : List Char) : List Char :=
  List.replicate (k - l.length) '0' ++ l

/-- The least exponent `k ≤ 64` with `q * 10 ^ k` integral, when one exists:
the cells this pipeline serializes are (binary, hence decimal) fractions, and
`showRat` prints them the way `float.__repr__` does, as exact finite
decimals. -/
def decExp? (q : ℚ) : Option Nat :=
  (List.range 65).find? (fun k => (q * 10 ^ k).den == 1)

/-- Decimal representation of a rational cell, as written into the CSV file.
Rationals that are not 64-place decimals (never produced by a float-valued
program) fall back to a fraction notation. -/
def showRat (q : ℚ) : String :=
  match decExp? q with
  | none =>
      (if q.num < 0 then "-" else "") ++ showNat q.num.natAbs ++ "/" ++ showNat q.den
  | some k =>
    let a := (q * 10 ^ k).num.natAbs
    let sgn : List Char := if q.num < 0 then ['-'] else []
    if k = 0 then String.mk (sgn ++ showNatDigits a)
    else String.mk (sgn ++ showNatDigits (a / 10 ^ k) ++
      '.' :: padDigits k (showNatDigits (a % 10 ^ k)))

/-- Parse an unsigned decimal numeral (`digits` or `digits.digits`). -/
def parseUnsigned (cs : List Char) : Option ℚ :=
  let ip := cs.takeWhile Char.isDigit
  let rest := cs.dropWhile Char.isDigit
  if ip = [] then none
  else if rest = [] then some ((digitsVal ip : ℕ) : ℚ)
  else if rest.head? = some '.' then
    let fp := rest.tail
    if fp ≠ [] ∧ fp.all Char.isDigit then
      some (((digitsVal ip : ℕ) : ℚ) + ((digitsVal fp : ℕ) : ℚ) / 10 ^ fp.length)
    else none
  else none

/-- Parse an optionally signed decimal numeral. This models the fragment of
`pd.read_csv`'s numeric sniffing that the pipeline's own output exercises
(plain and signed decimals; scientific notation and `inf`/`nan` spellings are
outside the cells this program writes). -/
def parseRatChars (cs : List Char) : Option ℚ :=
  if cs.head? = some '-' then (parseUnsigned cs.tail).map Neg.neg
  else parseUnsigned cs

/-- Parse a cell string as a number, if possible. -/
def parseRat (s : String) : Option ℚ := parseRatChars s.data

/-! ### The store: `to_csv` and `read_csv` -/

/-- Serialize one cell, as `to_csv` renders it (NaN becomes an empty field). -/
def writeCell : Value → String
  | .num q => showRat q
  | .str s => s
  | .nan => ""

/-- Model of `df.to_csv(..., index=False)`: header line, then the rows,
cell-wise serialized. -/
def toStore (t : Table) : Store :=
  t.header :: t.rows.map (fun r => r.map writeCell)

/-- A raw field is numeric-compatible when it is empty (missing) or parses as
a number. -/
def numericCell (s : String) : Bool := s == "" || (parseRat s).isSome

/-- Per-column type inference of `pd.read_csv`: if every field of the column
is numeric-compatible the column is numeric (empty fields become NaN);
otherwise it is an object column whose non-empty fields stay strings. -/
def inferCol (raw : List String) : List Value :=
  if raw.all numericCell then
    raw.map (fun s =>
      if s == "" then Value.nan
      else match parseRat s with
        | some q => Value.num q
        | none => Value.nan)
  else
    raw.map (fun s => if s == "" then Value.nan else Value.str s)

/-- Model of `pd.read_csv` on a store: first line is the header, the data
lines are read column-by-column with type inference. -/
def fromStore : Store → Table
  | [] => ⟨[], []⟩
  | h :: rs =>
    let cols := (List.range h.length).map (fun i => inferCol (rs.map (fun r => r.getD i "")))
    ⟨h, (List.range rs.length).map (fun j => cols.map (fun c => c.getD j Value.nan))⟩

/-! ### Ingestor (app.py lines 8-11) -/

/-- Model of `pd.read_csv("employee_performance_200.csv")` (line 8): the file
is either absent (`FileNotFoundError`) or a store to be read. No schema
validation of any kind is performed. -/
def read_csv (file : Option Store) : Except PyErr Table :=
  match file with
  | none => .error (.fileNotFound "employee_performance_200.csv")
  | some st => .ok (fromStore st)

/-- Fill one missing cell with `0`. -/
def fillValue : Value → Value
  | .nan => .num 0
  | v => v

/-- Model of `df.fillna(0, inplace=True)` (line 11): the resulting contents
of the dataframe object. -/
def fillna (t : Table) : Table :=
  ⟨t.header, t.rows.map (fun r => r.map fillValue)⟩

/-- The whole ingestion step (lines 8-11): read the source file, then fill
missing cells with zero. It either fails on a missing file or succeeds in
full; the columns present are never inspected. -/
def ingest (file : Option Store) : Except PyErr Table :=
  (read_csv file).map fillna

/-! ### Metrics Deriver (app.py lines 13-17) -/

/-- Column lookup `df[c]`: the cells of column `c`, or a `KeyError`. -/
def getCol? (t : Table) (c : String) : Option (List Value) :=
  (t.header.findIdx? (fun h => h == c)).map
    (fun i => t.rows.map (fun r => r.getD i Value.nan))

/-- Column lookup as the Python expression `df[c]` behaves: `KeyError` when
the column is absent. -/
def colE (t : Table) (c : String) : Except PyErr (List Value) :=
  match getCol? t c with
  | some l => .ok l
  | none => .error (.keyError c)

/-- Column assignment `df[c] = vs`: overwrite the column if `c` exists,
otherwise append it on the right. -/
def setCol (t : Table) (c : String) (vs : List Value) : Table :=
  match t.header.findIdx? (fun h => h == c) with
  | some i => ⟨t.header, (t.rows.zip vs).map (fun rv => rv.1.set i rv.2)⟩
  | none => ⟨t.header ++ [c], (t.rows.zip vs).map (fun rv => rv.1 ++ [rv.2])⟩

/-- Apply a fallible elementwise operation across a column, stopping at the
first failure, as pandas elementwise operations raise on the first offending
element. -/
def mapE {α β : Type} (f : α → Except PyErr β) : List α → Except PyErr (List β)
  | [] => .ok []
  | a :: l =>
    match f a with
    | .error e => .error e
    | .ok b =>
      match mapE f l with
      | .error e => .error e
      | .ok bs => .ok (b :: bs)

/-- One cell of line 13:
`df['ProjectsCompleted'] / df['ExperienceYears'].replace(0, 1) * 10`.
`replace(0, 1)` substitutes 1 for an exact zero divisor and nothing else;
NaN operands propagate; a string operand is a `TypeError`, as for pandas
object columns. -/
def effCellE : Value → Value → Except PyErr Value
  | .num p, .num e => .ok (.num (p / (if e = 0 then 1 else e) * 10))
  | .num _, .nan => .ok .nan
  | .nan, .num _ => .ok .nan
  | .nan, .nan => .ok .nan
  | _, _ => .error (.typeError "unsupported operand type for /")

/-- The lambda of lines 15-17:
`'High' if x >= 4.5 else 'Medium' if x >= 3.5 else 'Low'`. -/
def perfLevel (x : ℚ) : String :=
  if x ≥ 4.5 then "High" else if x ≥ 3.5 then "Medium" else "Low"

/-- One cell of the `Performance_Level` derivation. A NaN score compares
false on both thresholds (Python NaN comparisons are false), landing in the
`'Low'` branch; a string score is a `TypeError` (`str` vs `float`
comparison). -/
def levelCellE : Value → Except PyErr Value
  | .num x => .ok (.str (perfLevel x))
  | .nan => .ok (.str "Low")
  | .str _ => .error (.typeError "not supported between instances of str and float")

/-- The Metrics Deriver, lines 13-17 of app.py, as a function from the prior
contents of `df` to its contents afterwards:
`df['Efficiency (%)'] = (df['ProjectsCompleted'] / df['ExperienceYears'].replace(0, 1)) * 10`
then
`df['Performance_Level'] = df['PerformanceScore'].apply(lambda ...)`. -/
def deriveTable (t : Table) : Except PyErr Table :=
  match colE t "ProjectsCompleted" with
  | .error e => .error e
  | .ok ps =>
    match colE t "ExperienceYears" with
    | .error e => .error e
    | .ok es =>
      match mapE (fun pe => effCellE pe.1 pe.2) (ps.zip es) with
      | .error e => .error e
      | .ok effs =>
        match colE (setCol t "Efficiency (%)" effs) "PerformanceScore" with
        | .error e => .error e
        | .ok ss =>
          match mapE levelCellE ss with
          | .error e => .error e
          | .ok lvls => .ok (setCol (setCol t "Efficiency (%)" effs) "Performance_Level" lvls)

/-- Lines 13-17 mutate the dataframe object bound to `df` in place (column
assignment on the existing object). `deriveMut` returns the pair
(contents of the input object after the lines run, table handed to the rest
of the program); in the source both are the very same object. -/
def deriveMut (df : Table) : Except PyErr (Table × Table) :=
  (deriveTable df).map (fun t => (t, t))

/-- Lines 8-17: ingestion followed by derivation, yielding the table that
line 20 materializes. -/
def pipeline (file : Option Store) : Except PyErr Table :=
  match ingest file with
  | .error e => .error e
  | .ok t => deriveTable t

/-! ### Materializer (app.py line 20) -/

/-- Model of `df.to_csv("processed_data.csv", index=False)` as the sequence
of store contents a concurrent reader of the file can observe: `to_csv`
opens the destination for writing in place, which first truncates the file
and then appends the serialized lines; there is no temporary file and no
rename. The observable states are the prior contents followed by every
prefix of the new contents (the last state is the complete new store). -/
def writeStates (old : Store) (t : Table) : List Store :=
  old :: (List.range ((toStore t).length + 1)).map (fun i => (toStore t).take i)

/-! ### Aggregator and Query Surface (app.py lines 24-72) -/

/-- The numeric entries of a column (pandas aggregations skip NaN). -/
def numsOf (l : List Value) : List ℚ :=
  l.filterMap (fun v => match v with | .num q => some q | _ => none)

/-- Model of `Series.mean()`: the mean of the numeric entries, NaN when
there are none (in particular on an empty table). -/
def colMean (l : List Value) : Value :=
  let ns := numsOf l
  if ns.isEmpty then .nan else .num (ns.sum / ns.length)

/-- Round half to even (Python's `round`), on the exact value. -/
def roundHalfEven (x : ℚ) : ℤ :=
  let f := Int.floor x
  let r := x - f
  if r < 1/2 then f else if 1/2 < r then f + 1 else if f % 2 = 0 then f else f + 1

/-- Python's `round(x, 2)` on the exact value. -/
def pyRound2 (x : ℚ) : ℚ := (roundHalfEven (x * 100) : ℚ) / 100

/-- `round(v, 2)` on a cell; `round(nan, 2)` is NaN. -/
def round2V : Value → Value
  | .num q => .num (pyRound2 q)
  | v => v

/-- Model of `Series.idxmax()` over an indexed series: NaN entries are
skipped, the first index attaining the maximum is returned, and an empty (or
all-NaN) series raises `ValueError`. -/
def idxmaxPairs {α : Type} (l : List (α × Value)) : Except PyErr α :=
  match l.filterMap (fun kv => match kv.2 with | .num q => some (kv.1, q) | _ => none) with
  | [] => .error (.valueError "attempt to get argmax of an empty sequence")
  | x :: xs => .ok (xs.foldl (fun b y => if b.2 < y.2 then y else b) x).1

/-- The distinct group keys in first-occurrence order, NaN keys dropped, as
`groupby` forms its groups. (pandas additionally sorts the group keys in its
output; no claim settled here depends on the order of the groups.) -/
def firstKeys (l : List Value) : List Value :=
  l.foldl (fun acc v => if v = .nan ∨ v ∈ acc then acc else acc ++ [v]) []

/-- The mean of the values whose key equals `k`. -/
def groupMean (pairs : List (Value × Value)) (k : Value) : Value :=
  colMean ((pairs.filter (fun kv => kv.1 = k)).map (fun kv => kv.2))

/-- Model of `df.groupby(keyCol)[valCol].mean()`: one (key, mean) pair per
group. -/
def groupbyMean (keys vals : List Value) : List (Value × Value) :=
  (firstKeys keys).map (fun k => (k, groupMean (keys.zip vals) k))

/-- The flat key-value structure returned by `/api/metrics`. -/
structure Metrics where
  avgPerf : Value
  avgSalary : Value
  avgAttendance : Value
  topPerformer : Value
  topDept : Value
  highCount : Nat
  totalEmployees : Nat
deriving DecidableEq, Repr

/-- The summary dict of lines 51-59, computed over an in-memory dataframe.
The entries are evaluated in the order they appear in the dict literal, so
the first failing computation determines the exception raised. -/
def metricsOf (df : Table) : Except PyErr Metrics :=
  match colE df "PerformanceScore" with
  | .error e => .error e
  | .ok scores =>
    let aP := round2V (colMean scores)
    match colE df "MonthlySalary" with
    | .error e => .error e
    | .ok sal =>
      let aS := round2V (colMean sal)
      match colE df "AttendanceRate (%)" with
      | .error e => .error e
      | .ok att =>
        let aA := round2V (colMean att)
        match idxmaxPairs scores.enum with
        | .error e => .error e
        | .ok i =>
          match colE df "Name" with
          | .error e => .error e
          | .ok names =>
            let tp := names.getD i Value.nan
            match colE df "Department" with
            | .error e => .error e
            | .ok depts =>
              match idxmaxPairs (groupbyMean depts scores) with
              | .error e => .error e
              | .ok td =>
                match colE df "Performance_Level" with
                | .error e => .error e
                | .ok lvls =>
                  let hc := (lvls.filter (fun v => v = .str "High")).length
                  .ok ⟨aP, aS, aA, tp, td, hc, df.rows.length⟩

/-- Model of the `get_metrics` handler (lines 48-60): re-read
`processed_data.csv` and build the summary dict. -/
def get_metrics (st : Store) : Except PyErr Metrics :=
  metricsOf (fromStore st)

/-- Model of the `get_data` handler (lines 42-45): re-read
`processed_data.csv` and return `df.to_dict(orient='records')`, one
column-name/value record per row. -/
def get_data (st : Store) : List (List (String × Value)) :=
  (fromStore st).rows.map (fun r => (fromStore st).header.zip r)

/-- The department-wise mean computation of lines 66-71 over an in-memory
dataframe: `df.groupby('Department')['PerformanceScore'].mean().round(2)`. -/
def deptStatsOf (df : Table) : Except PyErr (List (Value × Value)) :=
  match colE df "Department" with
  | .error e => .error e
  | .ok depts =>
    match colE df "PerformanceScore" with
    | .error e => .error e
    | .ok scores => .ok ((groupbyMean depts scores).map (fun kv => (kv.1, round2V kv.2)))

/-- Model of the `get_department_stats` handler (lines 63-72): re-read
`processed_data.csv` and compute the rounded department means. -/
def get_department_stats (st : Store) : Except PyErr (List (Value × Value)) :=
  deptStatsOf (fromStore st)

/-- The process-level state of the running backend: the materialized store
on disk plus the module-level globals computed once at startup (lines 8-30):
the global dataframe and the module-level aggregates. The three route
handlers take the whole process state. -/
structure ProcState where
  processed : Store
  globalDf : Table
  avg_perf : Value
  avg_salary : Value
  avg_attendance : Value
  top_performer : Value
  top_dept : Value
deriving DecidableEq, Repr

/-- Route `/api/data` over the process state: reads only the store. -/
def get_data_route (p : ProcState) : List (List (String × Value)) :=
  get_data p.processed

/-- Route `/api/metrics` over the process state: reads only the store. -/
def get_metrics_route (p : ProcState) : Except PyErr Metrics :=
  get_metrics p.processed

/-- Route `/api/department` over the process state: reads only the store. -/
def get_department_route (p : ProcState) : Except PyErr (List (Value × Value)) :=
  get_department_stats p.processed

/-! ## Lemmas on decimal printing and parsing -/

theorem digitChar_toNat {d : Nat} (h : d < 10) : (digitChar d).toNat = 48 + d := by
  interval_cases d <;> decide

theorem digitChar_isDigit {d : Nat} (h : d < 10) : (digitChar d).isDigit = true := by
  interval_cases d <;> decide

theorem valRev_natToRevDigits (n : Nat) : valRev (natToRevDigits n) = n := by
  induction n using Nat.strong_induction_on with
  | _ n ih =>
    rw [natToRevDigits]
    split
    · next h => simp [valRev, digitChar_toNat h]
    · next h =>
      have hlt : n / 10 < n := Nat.div_lt_self (by omega) (by omega)
      simp [valRev, ih _ hlt, digitChar_toNat (Nat.mod_lt n (by omega))]
      omega

theorem natToRevDigits_ne_nil (n : Nat) : natToRevDigits n ≠ [] := by
  rw [natToRevDigits]; split <;> simp

theorem natToRevDigits_all_isDigit (n : Nat) : ∀ c ∈ natToRevDigits n, c.isDigit = true := by
  induction n using Nat.strong_induction_on with
  | _ n ih =>
    rw [natToRevDigits]
    split
    · next h =>
      intro c hc
      simp only [List.mem_singleton] at hc
      subst hc
      exact digitChar_isDigit h
    · next h =>
      intro c hc
      simp only [List.mem_cons] at hc
      rcases hc with rfl | hc
      · exact digitChar_isDigit (Nat.mod_lt n (by omega))
      · exact ih (n / 10) (Nat.div_lt_self (by omega) (by omega)) c hc

theorem showNatDigits_ne_nil (n : Nat) : showNatDigits n ≠ [] := by
  simp [showNatDigits, natToRevDigits_ne_nil n]

theorem showNatDigits_all_isDigit (n : Nat) : ∀ c ∈ showNatDigits n, c.isDigit = true := by
  intro c hc
  rw [showNatDigits, List.mem_reverse] at hc
  exact natToRevDigits_all_isDigit n c hc

theorem digitsVal_showNatDigits (n : Nat) : digitsVal (showNatDigits n) = n := by
  rw [digitsVal, showNatDigits, List.reverse_reverse, valRev_natToRevDigits]

theorem valRev_append (xs ys : List Char) :
    valRev (xs ++ ys) = valRev xs + 10 ^ xs.length * valRev ys := by
  induction xs with
  | nil => simp [valRev]
  | cons c r ih => simp [valRev, ih]; ring

theorem valRev_replicate_zero (j : Nat) : valRev (List.replicate j '0') = 0 := by
  induction j with
  | zero => rfl
  | succ j ih => simp [List.replicate_succ, valRev, ih]

theorem digitsVal_padDigits (k : Nat) (l : List Char) :
    digitsVal (padDigits k l) = digitsVal l := by
  rw [digitsVal, padDigits, List.reverse_append, List.reverse_replicate, valRev_append,
    valRev_replicate_zero, digitsVal]
  ring

theorem padDigits_all_isDigit {k : Nat} {l : List Char} (h : ∀ c ∈ l, c.isDigit = true) :
    ∀ c ∈ padDigits k l, c.isDigit = true := by
  intro c hc
  rw [padDigits, List.mem_append] at hc
  rcases hc with hc | hc
  · have hc0 : c = '0' := List.eq_of_mem_replicate hc
    subst hc0; decide
  · exact h c hc

theorem padDigits_length {k : Nat} {l : List Char} (h : l.length ≤ k) :
    (padDigits k l).length = k := by
  simp [padDigits]; omega

theorem padDigits_ne_nil {k : Nat} {l : List Char} (hk : 1 ≤ k) (h : l.length ≤ k) :
    padDigits k l ≠ [] := by
  intro hcon
  have hl := padDigits_length h
  rw [hcon] at hl
  simp at hl
  omega

theorem natToRevDigits_length_le {n k : Nat} (hk : 1 ≤ k) (h : n < 10 ^ k) :
    (natToRevDigits n).length ≤ k := by
  induction n using Nat.strong_induction_on generalizing k with
  | _ n ih =>
    rw [natToRevDigits]
    split
    · next => simpa using hk
    · next hn =>
      have hpow : 10 ^ k = 10 ^ (k - 1) * 10 := by
        rw [← pow_succ]
        congr 1
        omega
      have hk2 : 2 ≤ k := by
        by_contra hcon
        have hk1 : k = 1 := by omega
        subst hk1
        simp at h
        omega
      have hdiv : n / 10 < 10 ^ (k - 1) := by
        rw [hpow] at h
        omega
      have := ih (n / 10) (Nat.div_lt_self (by omega) (by omega)) (by omega) hdiv
      simp only [List.length_cons]
      omega

theorem showNatDigits_length_le {n k : Nat} (hk : 1 ≤ k) (h : n < 10 ^ k) :
    (showNatDigits n).length ≤ k := by
  rw [showNatDigits, List.length_reverse]
  exact natToRevDigits_length_le hk h

theorem takeWhile_all {p : Char → Bool} :
    ∀ (xs : List Char), (∀ c ∈ xs, p c = true) →
      xs.takeWhile p = xs ∧ xs.dropWhile p = []
  | [], _ => ⟨rfl, rfl⟩
  | c :: r, h => by
    have hc : p c = true := h c (by simp)
    have ih := takeWhile_all r (fun d hd => h d (by simp [hd]))
    simp [List.takeWhile_cons, List.dropWhile_cons, hc, ih.1, ih.2]

theorem takeWhile_append_stop {p : Char → Bool} {y : Char} (hy : p y = false) :
    ∀ (xs : List Char), (∀ c ∈ xs, p c = true) → ∀ (ys : List Char),
      (xs ++ y :: ys).takeWhile p = xs ∧ (xs ++ y :: ys).dropWhile p = y :: ys
  | [], _, ys => by simp [List.takeWhile_cons, List.dropWhile_cons, hy]
  | c :: r, h, ys => by
    have hc : p c = true := h c (by simp)
    have ih := takeWhile_append_stop hy r (fun d hd => h d (by simp [hd])) ys
    simp [List.takeWhile_cons, List.dropWhile_cons, hc, ih.1, ih.2]

theorem parseUnsigned_digits (a : Nat) :
    parseUnsigned (showNatDigits a) = some ((a : ℚ)) := by
  have htw := takeWhile_all (showNatDigits a) (showNatDigits_all_isDigit a)
  simp only [parseUnsigned, htw.1, htw.2]
  simp [showNatDigits_ne_nil a, digitsVal_showNatDigits]

theorem parseUnsigned_digits_frac (I F k : Nat) (hk : 1 ≤ k) (hF : F < 10 ^ k) :
    parseUnsigned (showNatDigits I ++ '.' :: padDigits k (showNatDigits F)) =
      some ((I : ℚ) + (F : ℚ) / 10 ^ k) := by
  have hdot : ('.').isDigit = false := by decide
  have htw := takeWhile_append_stop hdot (showNatDigits I) (showNatDigits_all_isDigit I)
    (padDigits k (showNatDigits F))
  have hlen : (padDigits k (showNatDigits F)).length = k :=
    padDigits_length (showNatDigits_length_le hk hF)
  have hnn : padDigits k (showNatDigits F) ≠ [] :=
    padDigits_ne_nil hk (showNatDigits_length_le hk hF)
  have hfd : (padDigits k (showNatDigits F)).all Char.isDigit = true := by
    rw [List.all_eq_true]
    exact padDigits_all_isDigit (showNatDigits_all_isDigit F)
  simp only [parseUnsigned, htw.1, htw.2]
  rw [if_neg (showNatDigits_ne_nil I), if_neg (by simp), List.head?_cons, if_pos rfl]
  simp only [List.tail_cons]
  rw [if_pos ⟨hnn, hfd⟩, digitsVal_padDigits, digitsVal_showNatDigits,
    digitsVal_showNatDigits, hlen]

theorem head?_digits_not_dash {cs : List Char} (h : ∀ c ∈ cs, c.isDigit = true) :
    ¬ cs.head? = some '-' := by
  cases cs with
  | nil => simp
  | cons c r =>
    simp only [List.head?_cons, Option.some.injEq]
    intro hc
    subst hc
    exact absurd (h '-' (by simp)) (by decide)

theorem head?_append_ne_nil {xs ys : List Char} (h : xs ≠ []) :
    (xs ++ ys).head? = xs.head? := by
  cases xs with
  | nil => exact absurd rfl h
  | cons c r => simp

theorem cast_div_add_mod (a k : ℕ) :
    ((a / 10 ^ k : ℕ) : ℚ) + ((a % 10 ^ k : ℕ) : ℚ) / 10 ^ k = (a : ℚ) / 10 ^ k := by
  have hdm : 10 ^ k * (a / 10 ^ k) + a % 10 ^ k = a := Nat.div_add_mod a (10 ^ k)
  have hdm2 : ((10 : ℚ)) ^ k * ((a / 10 ^ k : ℕ) : ℚ) + ((a % 10 ^ k : ℕ) : ℚ) = (a : ℚ) := by
    exact_mod_cast congrArg (fun n : ℕ => (n : ℚ)) hdm
  have hq10 : ((10 : ℚ)) ^ k ≠ 0 := by positivity
  field_simp
  ring_nf at hdm2 ⊢
  linarith [hdm2]

theorem parse_showRat {q : ℚ} {k : Nat} (h : decExp? q = some k) :
    parseRat (showRat q) = some q := by
  have hden : (q * 10 ^ k).den = 1 := by
    have hfind := List.find?_some h
    simpa using hfind
  have hMq : ((q * 10 ^ k).num : ℚ) = q * 10 ^ k := (Rat.den_eq_one_iff _).mp hden
  have hpow : (0:ℚ) < 10 ^ k := by positivity
  have hq : q = ((q * 10 ^ k).num : ℚ) / 10 ^ k := by
    rw [hMq]
    field_simp
  set M := (q * 10 ^ k).num with hMdef
  set a := M.natAbs with hadef
  have habs_nonneg : ¬ q.num < 0 → (a : ℚ) = (M : ℚ) := by
    intro hpos
    have h0q : 0 ≤ q := by
      rw [← Rat.num_nonneg]
      omega
    have h0 : 0 ≤ M := by
      rw [hMdef, Rat.num_nonneg]
      positivity
    rw [hadef]
    rw [show ((M.natAbs : ℕ) : ℚ) = (((M.natAbs : ℕ) : ℤ) : ℚ) from (Int.cast_natCast _).symm,
      Int.natAbs_of_nonneg h0]
  have habs_neg : q.num < 0 → (a : ℚ) = -(M : ℚ) := by
    intro hneg
    have h0q : q < 0 := by
      by_contra hcon
      rw [not_lt] at hcon
      rw [← Rat.num_nonneg] at hcon
      omega
    have h0 : M ≤ 0 := by
      rw [hMdef]
      have hlt : q * 10 ^ k < 0 := mul_neg_of_neg_of_pos h0q hpow
      by_contra hcon
      rw [not_le] at hcon
      have := Rat.num_pos.mp hcon
      linarith
    rw [hadef]
    rw [show ((M.natAbs : ℕ) : ℚ) = (((M.natAbs : ℕ) : ℤ) : ℚ) from (Int.cast_natCast _).symm,
      Int.ofNat_natAbs_of_nonpos h0, Int.cast_neg]
  by_cases hk0 : k = 0
  · -- integer branch of showRat
    have hq1 : (M : ℚ) = q := by
      rw [hMq, hk0]
      ring
    by_cases hneg : q.num < 0
    · have hshow : showRat q = String.mk ('-' :: showNatDigits a) := by
        rw [showRat.eq_def, h]
        simp [hk0, hneg, ← hMdef, ← hadef]
        rw [hadef, hMdef, hk0]
        norm_num
      rw [hshow, parseRat]
      show parseRatChars ('-' :: showNatDigits a) = some q
      rw [parseRatChars, List.head?_cons, if_pos rfl, List.tail_cons, parseUnsigned_digits]
      rw [Option.map_some', habs_neg hneg, hq1]
      simp
    · have hshow : showRat q = String.mk (showNatDigits a) := by
        rw [showRat.eq_def, h]
        simp [hk0, hneg, ← hMdef, ← hadef]
        rw [hadef, hMdef, hk0]
        norm_num
      rw [hshow, parseRat]
      show parseRatChars (showNatDigits a) = some q
      rw [parseRatChars,
        if_neg (head?_digits_not_dash (showNatDigits_all_isDigit a)),
        parseUnsigned_digits, habs_nonneg hneg, hq1]
  · -- fractional branch of showRat
    have hk1 : 1 ≤ k := by omega
    have hFlt : a % 10 ^ k < 10 ^ k := Nat.mod_lt _ (by positivity)
    have harith : ((a / 10 ^ k : ℕ) : ℚ) + ((a % 10 ^ k : ℕ) : ℚ) / 10 ^ k = (a : ℚ) / 10 ^ k :=
      cast_div_add_mod a k
    by_cases hneg : q.num < 0
    · have hshow : showRat q = String.mk ('-' ::
          (showNatDigits (a / 10 ^ k) ++ '.' :: padDigits k (showNatDigits (a % 10 ^ k)))) := by
        rw [showRat.eq_def, h]
        simp [hk0, hneg, ← hMdef, ← hadef]
      rw [hshow, parseRat]
      show parseRatChars ('-' ::
          (showNatDigits (a / 10 ^ k) ++ '.' :: padDigits k (showNatDigits (a % 10 ^ k)))) = some q
      rw [parseRatChars, List.head?_cons, if_pos rfl, List.tail_cons,
        parseUnsigned_digits_frac _ _ _ hk1 hFlt, Option.map_some', harith, habs_neg hneg, hq]
      rw [neg_div, neg_neg]
    · have hshow : showRat q = String.mk
          (showNatDigits (a / 10 ^ k) ++ '.' :: padDigits k (showNatDigits (a % 10 ^ k))) := by
        rw [showRat.eq_def, h]
        simp [hk0, hneg, ← hMdef, ← hadef]
      rw [hshow, parseRat]
      show parseRatChars
          (showNatDigits (a / 10 ^ k) ++ '.' :: padDigits k (showNatDigits (a % 10 ^ k))) = some q
      rw [parseRatChars]
      rw [if_neg (by
        rw [head?_append_ne_nil (showNatDigits_ne_nil _)]
        exact head?_digits_not_dash (showNatDigits_all_isDigit _))]
      rw [parseUnsigned_digits_frac _ _ _ hk1 hFlt, harith, habs_nonneg hneg, hq]

/-! ## Round-trip conditions on columns -/

/-- Cells re-read intact inside a column that `read_csv` infers as numeric:
numbers with an exact (at most 64-place) decimal representation, and NaN. -/
def numOKb : Value → Bool
  | .nan => true
  | .num q => (decExp? q).isSome
  | .str _ => false

/-- Cells re-read intact inside a column that `read_csv` keeps as strings:
non-empty strings that do not parse as numbers. -/
def strOKb : Value → Bool
  | .str s => (!(s == "")) && (parseRat s).isNone
  | _ => false

/-- A column survives the `to_csv`/`read_csv` round trip when it is entirely
numeric-or-missing or entirely made of non-numeric non-empty strings: that is
exactly when `read_csv`'s per-column type inference reconstructs every cell. -/
def colOKb (l : List Value) : Bool := l.all numOKb || l.all strOKb

theorem showRat_ne_empty {q : ℚ} {k : Nat} (h : decExp? q = some k) :
    (showRat q == "") = false := by
  rw [beq_eq_false_iff_ne]
  intro hcon
  have hp := parse_showRat h
  rw [hcon] at hp
  exact Option.noConfusion hp

theorem numericCell_of_numOK {v : Value} (h : numOKb v = true) :
    numericCell (writeCell v) = true := by
  cases v with
  | nan => rfl
  | str s => exact absurd h (by simp [numOKb])
  | num q =>
    obtain ⟨k, hk⟩ := Option.isSome_iff_exists.mp (by simpa [numOKb] using h)
    simp [numericCell, writeCell, parse_showRat hk]

theorem numCell_round {v : Value} (h : numOKb v = true) :
    (if writeCell v == "" then Value.nan
     else match parseRat (writeCell v) with
       | some q => Value.num q
       | none => Value.nan) = v := by
  cases v with
  | nan => rfl
  | str s => exact absurd h (by simp [numOKb])
  | num q =>
    obtain ⟨k, hk⟩ := Option.isSome_iff_exists.mp (by simpa [numOKb] using h)
    rw [writeCell, if_neg (by simp [showRat_ne_empty hk]), parse_showRat hk]

theorem strCell_round {v : Value} (h : strOKb v = true) :
    (if writeCell v == "" then Value.nan else Value.str (writeCell v)) = v := by
  cases v with
  | nan => exact absurd h (by simp [strOKb])
  | num q => exact absurd h (by simp [strOKb])
  | str s =>
    simp only [strOKb, Bool.and_eq_true, Bool.not_eq_true'] at h
    rw [writeCell, if_neg (by simp [h.1])]

theorem strCell_not_numeric {v : Value} (h : strOKb v = true) :
    numericCell (writeCell v) = false := by
  cases v with
  | nan => exact absurd h (by simp [strOKb])
  | num q => exact absurd h (by simp [strOKb])
  | str s =>
    simp only [strOKb, Bool.and_eq_true, Bool.not_eq_true'] at h
    simp [numericCell, writeCell, h.1, Option.isNone_iff_eq_none.mp h.2]

theorem inferCol_writeCol {l : List Value} (h : colOKb l = true) :
    inferCol (l.map writeCell) = l := by
  rw [colOKb, Bool.or_eq_true] at h
  rcases h with h | h
  · rw [List.all_eq_true] at h
    rw [inferCol, if_pos ?hnum]
    case hnum =>
      rw [List.all_eq_true]
      intro s hs
      obtain ⟨v, hv, rfl⟩ := List.mem_map.1 hs
      exact numericCell_of_numOK (h v hv)
    rw [List.map_map]
    conv_rhs => rw [← List.map_id l]
    apply List.map_congr_left
    intro v hv
    exact numCell_round (h v hv)
  · cases l with
    | nil => rfl
    | cons v rest =>
      rw [List.all_eq_true] at h
      rw [inferCol, if_neg ?hstr]
      case hstr =>
        intro hcon
        rw [List.all_eq_true] at hcon
        have hmem : writeCell v ∈ (v :: rest).map writeCell := by simp
        have h1 := hcon (writeCell v) hmem
        rw [strCell_not_numeric (h v (by simp))] at h1
        exact Bool.noConfusion h1
      rw [List.map_map]
      conv_rhs => rw [← List.map_id (v :: rest)]
      apply List.map_congr_left
      intro w hw
      exact strCell_round (h w hw)

/-! ## The store round trip -/

theorem getD_map_col (rows : List (List Value)) (i j : Nat) :
    (rows.map (fun r => r.getD i Value.nan)).getD j Value.nan =
      (rows.getD j []).getD i Value.nan := by
  have h : (rows.map (fun r => r.getD i Value.nan)).getD j
        ((fun r : List Value => r.getD i Value.nan) []) =
      (fun r : List Value => r.getD i Value.nan) (rows.getD j []) :=
    List.getD_map rows ([] : List Value) (fun r => r.getD i Value.nan)
  simpa using h

theorem range_map_getD {α : Type} (r : List α) (d : α) :
    (List.range r.length).map (fun i => r.getD i d) = r := by
  apply List.ext_getElem (by simp)
  intro i h1 h2
  simp only [List.getElem_map, List.getElem_range, List.getD_eq_getElem r d h2]

/-- Any table whose columns all satisfy `colOKb` is reproduced exactly by
writing it with `to_csv` and re-reading it with `read_csv`. -/
theorem store_roundTrip (t : Table)
    (hwf : ∀ r ∈ t.rows, r.length = t.header.length)
    (hcols : ∀ i < t.header.length,
      colOKb (t.rows.map (fun r => r.getD i Value.nan)) = true) :
    fromStore (toStore t) = t := by
  have hcol : ∀ i,  i < t.header.length →
      inferCol ((t.rows.map (fun r => r.map writeCell)).map (fun r => r.getD i "")) =
        t.rows.map (fun r => r.getD i Value.nan) := by
    intro i hi
    have hser : (t.rows.map (fun r => r.map writeCell)).map (fun r => r.getD i "") =
        (t.rows.map (fun r => r.getD i Value.nan)).map writeCell := by
      rw [List.map_map, List.map_map]
      apply List.map_congr_left
      intro r hr
      show (r.map writeCell).getD i "" = writeCell (r.getD i Value.nan)
      rw [show ("" : String) = writeCell Value.nan from rfl, List.getD_map]
    rw [hser, inferCol_writeCol (hcols i hi)]
  show Table.mk t.header _ = t
  have hrows : (List.range (t.rows.map (fun r => r.map writeCell)).length).map
      (fun j => ((List.range t.header.length).map
        (fun i => inferCol ((t.rows.map (fun r => r.map writeCell)).map
          (fun r => r.getD i "")))).map (fun c => c.getD j Value.nan)) = t.rows := by
    apply List.ext_getElem (by simp)
    intro j h1 h2
    rw [List.getElem_map, List.getElem_range]
    have hrowlen : (t.rows[j]).length = t.header.length :=
      hwf _ (List.getElem_mem h2)
    conv_rhs => rw [← range_map_getD t.rows[j] Value.nan, hrowlen]
    rw [List.map_map]
    apply List.map_congr_left
    intro i hi
    rw [List.mem_range] at hi
    show (inferCol ((t.rows.map (fun r => r.map writeCell)).map
        (fun r => r.getD i ""))).getD _ Value.nan = _
    rw [hcol i hi, getD_map_col, List.getD_eq_getElem _ _ h2]
  exact congrArg (Table.mk t.header) hrows

/-! ## Lemmas on column access and assignment -/

theorem findIdx?_of_mem {c : String} {l : List String} (h : c ∈ l) :
    ∃ i, l.findIdx? (fun x => x == c) = some i := by
  cases hf : l.findIdx? (fun x => x == c) with
  | some i => exact ⟨i, rfl⟩
  | none =>
    rw [List.findIdx?_eq_none_iff] at hf
    have hc := hf c h
    simp at hc

theorem findIdx?_eq_none_of_not_mem {c : String} {l : List String} (h : c ∉ l) :
    l.findIdx? (fun x => x == c) = none := by
  rw [List.findIdx?_eq_none_iff]
  intro x hx
  rw [beq_eq_false_iff_ne]
  rintro rfl
  exact h hx

theorem colE_of_mem {t : Table} {c : String} (h : c ∈ t.header) :
    ∃ i, t.header.findIdx? (fun x => x == c) = some i ∧
      colE t c = .ok (t.rows.map (fun r => r.getD i Value.nan)) := by
  obtain ⟨i, hi⟩ := findIdx?_of_mem h
  exact ⟨i, hi, by simp [colE, getCol?, hi]⟩

theorem colE_of_not_mem {t : Table} {c : String} (h : c ∉ t.header) :
    colE t c = .error (.keyError c) := by
  simp [colE, getCol?, findIdx?_eq_none_of_not_mem h]

theorem colE_ok_shape {t : Table} {c : String} {l : List Value}
    (h : colE t c = .ok l) :
    ∃ i, l = t.rows.map (fun r => r.getD i Value.nan) := by
  rw [colE] at h
  cases hg : getCol? t c with
  | none => rw [hg] at h; exact Except.noConfusion h
  | some l2 =>
    rw [hg] at h
    rw [getCol?] at hg
    cases hf : t.header.findIdx? (fun x => x == c) with
    | none => rw [hf] at hg; exact Option.noConfusion hg
    | some i =>
      rw [hf] at hg
      refine ⟨i, ?_⟩
      cases h
      cases hg
      rfl

theorem colE_ok_length {t : Table} {c : String} {l : List Value}
    (h : colE t c = .ok l) : l.length = t.rows.length := by
  obtain ⟨i, rfl⟩ := colE_ok_shape h
  exact List.length_map _ _

theorem setCol_fresh {t : Table} {c : String} (h : c ∉ t.header) (vs : List Value) :
    setCol t c vs =
      ⟨t.header ++ [c], (t.rows.zip vs).map (fun rv => rv.1 ++ [rv.2])⟩ := by
  rw [setCol, findIdx?_eq_none_of_not_mem h]

theorem mapE_ok_length {α β : Type} {f : α → Except PyErr β} :
    ∀ {l : List α} {ys : List β}, mapE f l = .ok ys → ys.length = l.length := by
  intro l
  induction l with
  | nil =>
    intro ys h
    rw [mapE] at h
    cases h
    rfl
  | cons a r ih =>
    intro ys h
    rw [mapE] at h
    cases hfa : f a with
    | error e => rw [hfa] at h; exact Except.noConfusion h
    | ok b =>
      rw [hfa] at h
      cases hrec : mapE f r with
      | error e => rw [hrec] at h; exact Except.noConfusion h
      | ok bs =>
        rw [hrec] at h
        cases h
        simp [ih hrec]

theorem zip_append_get? {l1 : List (List Value)} :
    ∀ {l2 : List Value} {j : Nat} {r : List Value},
      l1.get? j = some r → j < l2.length →
      ∃ v, l2.get? j = some v ∧
        ((l1.zip l2).map (fun rv => rv.1 ++ [rv.2])).get? j = some (r ++ [v]) := by
  induction l1 with
  | nil => intro l2 j r h1 h2; simp at h1
  | cons a l ih =>
    intro l2 j r h1 h2
    cases l2 with
    | nil => simp at h2
    | cons b l2 =>
      cases j with
      | zero =>
        simp only [List.get?] at h1
        cases h1
        exact ⟨b, rfl, by simp⟩
      | succ j =>
        simp only [List.get?] at h1
        have h2j : j < l2.length := by simpa using h2
        obtain ⟨v, hv1, hv2⟩ := ih h1 h2j
        exact ⟨v, hv1, by simpa using hv2⟩

/-! ## Concrete data used by witnesses and counterexamples -/

/-- A source CSV with two records; the second record's Name cell is missing. -/
def srcStore : Store :=
  [["Name", "ExperienceYears", "ProjectsCompleted", "PerformanceScore"],
   ["Alice", "2", "4", "3.0"],
   ["", "0", "5", "4.6"]]

/-- The ingested table of `srcStore`: read with type inference, then
zero-filled — the missing Name cell has become the number 0. -/
def ingestedT : Table :=
  ⟨["Name", "ExperienceYears", "ProjectsCompleted", "PerformanceScore"],
   [[.str "Alice", .num 2, .num 4, .num 3],
    [.num 0, .num 0, .num 5, .num (23/5)]]⟩

/-- The derived table of `srcStore`. -/
def derivedT : Table :=
  ⟨["Name", "ExperienceYears", "ProjectsCompleted", "PerformanceScore",
    "Efficiency (%)", "Performance_Level"],
   [[.str "Alice", .num 2, .num 4, .num 3, .num 20, .str "Low"],
    [.num 0, .num 0, .num 5, .num (23/5), .num 50, .str "High"]]⟩

/-- A derived table every column of which is type-homogeneous. -/
def wellTypedT : Table :=
  ⟨["Name", "ExperienceYears", "ProjectsCompleted", "PerformanceScore",
    "Efficiency (%)", "Performance_Level"],
   [[.str "Alice", .num 2, .num 4, .num 3, .num 20, .str "Low"],
    [.str "Bob", .num 0, .num 5, .num (23/5), .num 50, .str "High"]]⟩

/-- A processed store realizing the spec's §8 concrete scenario. -/
def processedStore : Store :=
  [["Name", "Department", "ExperienceYears", "ProjectsCompleted", "MonthlySalary",
    "AttendanceRate (%)", "PerformanceScore", "Efficiency (%)", "Performance_Level"],
   ["A", "Eng", "0", "5", "1000", "90", "4.6", "50.0", "High"],
   ["B", "Eng", "2", "4", "2000", "80", "3.0", "20.0", "Low"]]

/-- The summary metrics of `processedStore`. -/
def processedMetrics : Metrics :=
  ⟨.num (19/5), .num 1500, .num 85, .str "A", .str "Eng", 1, 2⟩

/-- A processed store holding the full header but no records. -/
def emptyProcessedStore : Store :=
  [["Name", "Department", "ExperienceYears", "ProjectsCompleted", "MonthlySalary",
    "AttendanceRate (%)", "PerformanceScore", "Efficiency (%)", "Performance_Level"]]

/-- Prior store contents, for the materializer trace. -/
def oldStore : Store := [["Name"], ["Old"]]

/-- A one-record table to materialize. -/
def smallT : Table := ⟨["A"], [[.num 1]]⟩

/-- A process state with empty module-level globals. -/
def procA : ProcState := ⟨processedStore, ⟨[], []⟩, .nan, .nan, .nan, .nan, .nan⟩

/-- A process state over the same store with entirely different globals. -/
def procB : ProcState := ⟨processedStore, ingestedT, .num 1, .num 2, .num 3, .str "X", .str "Y"⟩

/-! ## Claim theorems -/

/-- Claim C1, counterexample: at ExperienceYears = -1 and ProjectsCompleted
= 5, the code's Efficiency (which substitutes 1 only for an exact zero
divisor) is -50, while ProjectsCompleted / max(ExperienceYears, 1) * 10 = 50,
and the result is negative — the claimed formula and the claimed
non-negativity both fail. -/
theorem c1_efficiency_counterexample :
    effCellE (.num 5) (.num (-1)) = .ok (.num (-50)) ∧
    (-50 : ℚ) ≠ 5 / max (-1 : ℚ) 1 * 10 ∧ ¬ (0:ℚ) ≤ (-50 : ℚ) := by
  refine ⟨by with_unfolding_all decide, ?_, by norm_num⟩
  rw [max_eq_right (by norm_num : (-1:ℚ) ≤ 1)]
  norm_num

/-- Claim C1, amended: the derived Efficiency equals
ProjectsCompleted / d * 10 where d is ExperienceYears with an exact zero
replaced by 1; the divisor is never zero; and when ProjectsCompleted ≥ 0 and
ExperienceYears is zero or at least 1 (as for a non-negative integer years
column), this coincides with ProjectsCompleted / max(ExperienceYears, 1) * 10
and is non-negative. -/
theorem c1_efficiency_amended (p e : ℚ) (hp : 0 ≤ p) (he : e = 0 ∨ 1 ≤ e) :
    effCellE (.num p) (.num e) = .ok (.num (p / max e 1 * 10)) ∧
    0 ≤ p / max e 1 * 10 ∧ (if e = 0 then (1:ℚ) else e) ≠ 0 := by
  rcases he with rfl | he1
  · refine ⟨?_, ?_, by simp⟩
    · show Except.ok (Value.num (p / (if (0:ℚ) = 0 then 1 else 0) * 10)) = _
      rw [if_pos rfl, max_eq_right (by norm_num : (0:ℚ) ≤ 1)]
    · rw [max_eq_right (by norm_num : (0:ℚ) ≤ 1), div_one]
      exact mul_nonneg hp (by norm_num)
  · have hne : e ≠ 0 := by linarith
    have he0 : 0 < e := by linarith
    refine ⟨?_, ?_, by simp [hne]⟩
    · show Except.ok (Value.num (p / (if e = 0 then 1 else e) * 10)) = _
      rw [if_neg hne, max_eq_left he1]
    · rw [max_eq_left he1]
      exact mul_nonneg (div_nonneg hp he0.le) (by norm_num)

/-- Claim C1, witness at ProjectsCompleted = 5, ExperienceYears = 0. -/
theorem c1_efficiency_witness :
    effCellE (.num 5) (.num 0) = .ok (.num (5 / max (0:ℚ) 1 * 10)) ∧
    (0:ℚ) ≤ 5 / max (0:ℚ) 1 * 10 ∧ (if (0:ℚ) = 0 then (1:ℚ) else (0:ℚ)) ≠ 0 :=
  c1_efficiency_amended 5 0 (by norm_num) (Or.inl rfl)

/-- Claim C2: the three thresholds of the Performance_Level lambda partition
the line with no gap and no overlap — for every score exactly one of the
three bands applies and the label matches it — and in particular 4.5 maps to
High, 4.499999 to Medium, 3.5 to Medium, and 3.499999 to Low. -/
theorem c2_performance_level (x : ℚ) :
    (((4.5:ℚ) ≤ x ∧ perfLevel x = "High" ∧ ¬((3.5:ℚ) ≤ x ∧ x < 4.5) ∧ ¬(x < 3.5)) ∨
     ((3.5:ℚ) ≤ x ∧ x < 4.5 ∧ perfLevel x = "Medium" ∧ ¬((4.5:ℚ) ≤ x) ∧ ¬(x < 3.5)) ∨
     (x < (3.5:ℚ) ∧ perfLevel x = "Low" ∧ ¬((4.5:ℚ) ≤ x) ∧ ¬((3.5:ℚ) ≤ x ∧ x < 4.5))) ∧
    perfLevel (4.5:ℚ) = "High" ∧ perfLevel (4.499999:ℚ) = "Medium" ∧
    perfLevel (3.5:ℚ) = "Medium" ∧ perfLevel (3.499999:ℚ) = "Low" := by
  constructor
  · by_cases h1 : (4.5:ℚ) ≤ x
    · refine Or.inl ⟨h1, ?_, ?_, ?_⟩
      · rw [perfLevel, if_pos h1]
      · rintro ⟨-, hlt⟩
        linarith
      · intro hlt
        linarith
    · by_cases h2 : (3.5:ℚ) ≤ x
      · refine Or.inr (Or.inl ⟨h2, not_le.mp h1, ?_, h1, ?_⟩)
        · rw [perfLevel, if_neg h1, if_pos h2]
        · intro hlt
          linarith
      · refine Or.inr (Or.inr ⟨not_le.mp h2, ?_, h1, ?_⟩)
        · rw [perfLevel, if_neg h1, if_neg h2]
        · rintro ⟨hge, -⟩
          exact h2 hge
  · refine ⟨?_, ?_, ?_, ?_⟩ <;> with_unfolding_all decide

/-- Claim C3, counterexample: over the empty record set the summary-metrics
computation raises the pandas idxmax ValueError — an argmax-of-empty-sequence
exception — which is not the spec's UndefinedAggregate signal. -/
theorem c3_empty_aggregate_counterexample :
    get_metrics emptyProcessedStore =
      .error (.valueError "attempt to get argmax of an empty sequence") ∧
    PyErr.valueError "attempt to get argmax of an empty sequence" ≠
      PyErr.undefinedAggregate := by
  exact ⟨by with_unfolding_all decide, by decide⟩

/-- Claim C3, amended: computing SummaryMetrics over an empty record set
raises the unhandled ValueError from `idxmax` on the empty PerformanceScore
column ("attempt to get argmax of an empty sequence") — an exception that
propagates to the caller — rather than a defined UndefinedAggregate error;
the mean entries evaluated before it are NaN, not a crash. -/
theorem c3_empty_aggregate_amended (df : Table) (hrows : df.rows = [])
    (h1 : "PerformanceScore" ∈ df.header) (h2 : "MonthlySalary" ∈ df.header)
    (h3 : "AttendanceRate (%)" ∈ df.header) :
    metricsOf df = .error (.valueError "attempt to get argmax of an empty sequence") := by
  obtain ⟨i1, hf1, hc1⟩ := colE_of_mem h1
  obtain ⟨i2, hf2, hc2⟩ := colE_of_mem h2
  obtain ⟨i3, hf3, hc3⟩ := colE_of_mem h3
  rw [hrows] at hc1 hc2 hc3
  simp only [List.map_nil] at hc1 hc2 hc3
  simp only [metricsOf, hc1, hc2, hc3, List.enum_nil]
  simp [idxmaxPairs]

/-- Claim C3, witness: the empty dataframe with the full processed header. -/
theorem c3_empty_aggregate_witness :
    metricsOf ⟨["Name", "Department", "ExperienceYears", "ProjectsCompleted", "MonthlySalary",
      "AttendanceRate (%)", "PerformanceScore", "Efficiency (%)", "Performance_Level"], []⟩ =
      .error (.valueError "attempt to get argmax of an empty sequence") :=
  c3_empty_aggregate_amended _ rfl (by decide) (by decide) (by decide)

/-- Claim C4, counterexample: running the deriver on a concrete ingested
table leaves the dataframe object holding the derived table, which differs
from the ingested contents — the input table is mutated, not left unchanged,
and no fresh table is created. -/
theorem c4_deriver_mutation_counterexample :
    deriveMut ingestedT = .ok (derivedT, derivedT) ∧ derivedT ≠ ingestedT := by
  exact ⟨by with_unfolding_all decide, by with_unfolding_all decide⟩

/-- Claim C4, amended: the deriver is a deterministic function of the
ingested contents with no effects beyond the dataframe object itself, but it
mutates that object in place: whenever derivation succeeds, the object the
caller handed in afterwards holds exactly the derived table, and the table
handed onward is that same object. -/
theorem c4_deriver_in_place (df t2 : Table) (h : deriveTable df = .ok t2) :
    deriveMut df = .ok (t2, t2) := by
  rw [deriveMut, h]
  rfl

/-- Claim C4, witness at the concrete ingested table. -/
theorem c4_deriver_in_place_witness : deriveMut ingestedT = .ok (derivedT, derivedT) :=
  c4_deriver_in_place ingestedT derivedT (by with_unfolding_all decide)

/-- Claim C5, counterexample: loading a table that lacks every required
column succeeds — the ingestor performs no schema check, so no
SchemaMismatch-style failure occurs at ingestion. -/
theorem c5_ingest_counterexample :
    ingest (some [["Foo"]]) = .ok ⟨["Foo"], []⟩ := by
  with_unfolding_all decide

/-- Claim C5, amended: ingestion fails (FileNotFoundError) exactly when the
source file is absent and otherwise succeeds in full whatever the columns
are — there is no schema validation and no partial success; a missing
required column only surfaces later, as the deriver's KeyError on
ProjectsCompleted. -/
theorem c5_ingest_amended :
    ingest none = .error (.fileNotFound "employee_performance_200.csv") ∧
    (∀ st : Store, (ingest (some st)).isOk = true) ∧
    (∀ t : Table, "ProjectsCompleted" ∉ t.header →
      deriveTable t = .error (.keyError "ProjectsCompleted")) := by
  refine ⟨rfl, fun st => rfl, ?_⟩
  intro t h
  simp only [deriveTable, colE_of_not_mem h]

/-- Claim C5, witness: the one-column store. -/
theorem c5_ingest_witness :
    (ingest (some ([["Foo"]] : Store))).isOk = true ∧
    deriveTable ⟨["Foo"], []⟩ = .error (.keyError "ProjectsCompleted") :=
  ⟨c5_ingest_amended.2.1 [["Foo"]], c5_ingest_amended.2.2 ⟨["Foo"], []⟩ (by decide)⟩

/-- Claim C6, counterexample: the derived table of a source whose Name
column had a missing cell (zero-filled to the number 0) does not survive the
materialize/re-read round trip: the Name column re-reads as an object column,
so the numeric 0 comes back as the string "0". -/
theorem c6_roundtrip_counterexample :
    pipeline (some srcStore) = .ok derivedT ∧ fromStore (toStore derivedT) ≠ derivedT := by
  exact ⟨by with_unfolding_all decide, by with_unfolding_all decide⟩

/-- Claim C6, amended: materializing and re-reading reproduces a derived
table field-for-field provided each column round-trips under read_csv's
per-column type inference: every column must be either entirely numeric
decimals or missing cells, or entirely non-empty strings that do not parse
as numbers. A column mixing strings with numbers (as zero-filling a string
column produces), an empty-string cell, or a non-decimal rational breaks the
round trip. -/
theorem c6_roundtrip_amended (t : Table)
    (hwf : ∀ r ∈ t.rows, r.length = t.header.length)
    (hcols : ∀ i < t.header.length,
      colOKb (t.rows.map (fun r => r.getD i Value.nan)) = true) :
    fromStore (toStore t) = t :=
  store_roundTrip t hwf hcols

/-- Claim C6, witness: a type-homogeneous derived table round-trips. -/
theorem c6_roundtrip_witness : fromStore (toStore wellTypedT) = wellTypedT :=
  c6_roundtrip_amended wellTypedT (by decide) (by with_unfolding_all decide)

/-- Claim C7: whenever the summary-metrics operation returns a value over a
store, its Total Employees entry equals the number of records the all-records
operation returns over that same store. -/
theorem c7_total_employees (st : Store) (m : Metrics) (h : get_metrics st = .ok m) :
    m.totalEmployees = (get_data st).length := by
  have hlen : (get_data st).length = (fromStore st).rows.length := by
    rw [get_data]
    exact List.length_map _ _
  rw [hlen]
  rw [get_metrics] at h
  revert h
  generalize fromStore st = df
  intro h
  rw [metricsOf.eq_def] at h
  repeat' split at h
  all_goals first
    | exact Except.noConfusion h
    | (cases h; rfl)

/-- Claim C7, witness at the spec's §8 scenario store. -/
theorem c7_total_employees_witness :
    processedMetrics.totalEmployees = (get_data processedStore).length :=
  c7_total_employees processedStore processedMetrics (by with_unfolding_all decide)

/-- Claim C8, counterexample: the materialized store's header is the input
columns with "Efficiency (%)" and "Performance_Level" appended — there is no
column named "Efficiency", contrary to the claimed name. -/
theorem c8_store_format_counterexample :
    deriveTable ingestedT = .ok derivedT ∧
    (toStore derivedT).head? =
      some (ingestedT.header ++ ["Efficiency (%)", "Performance_Level"]) ∧
    "Efficiency" ∉ derivedT.header := by
  refine ⟨by with_unfolding_all decide, by with_unfolding_all decide, by decide⟩

/-- Claim C8, amended: for an input table whose columns do not
already contain the derived names, a successful derivation appends exactly
two columns, named "Efficiency (%)" (not "Efficiency") and
"Performance_Level", on the right of the header — which is what the
materialized store's header line shows — and every input row is carried
through unchanged as the prefix of the corresponding output row. -/
theorem c8_store_format_amended (t t2 : Table)
    (hfresh1 : "Efficiency (%)" ∉ t.header)
    (hfresh2 : "Performance_Level" ∉ t.header)
    (h : deriveTable t = .ok t2) :
    t2.header = t.header ++ ["Efficiency (%)", "Performance_Level"] ∧
    (toStore t2).head? = some (t.header ++ ["Efficiency (%)", "Performance_Level"]) ∧
    t2.rows.length = t.rows.length ∧
    (∀ j r, t.rows.get? j = some r → ∃ e l, t2.rows.get? j = some (r ++ [e, l])) := by
  rw [deriveTable.eq_def] at h
  split at h
  · exact Except.noConfusion h
  rename_i ps hps
  split at h
  · exact Except.noConfusion h
  rename_i es hes
  split at h
  · exact Except.noConfusion h
  rename_i effs heff
  split at h
  · exact Except.noConfusion h
  rename_i ss hss
  split at h
  · exact Except.noConfusion h
  rename_i lvls hlv
  simp only [Except.ok.injEq] at h
  subst h
  have hpslen : ps.length = t.rows.length := colE_ok_length hps
  have heslen : es.length = t.rows.length := colE_ok_length hes
  have hefflen : effs.length = t.rows.length := by
    have hml := mapE_ok_length heff
    rw [List.length_zip, hpslen, heslen, min_self] at hml
    exact hml
  have ht1 : setCol t "Efficiency (%)" effs =
      ⟨t.header ++ ["Efficiency (%)"], (t.rows.zip effs).map (fun rv => rv.1 ++ [rv.2])⟩ :=
    setCol_fresh hfresh1 effs
  have ht1rows : (setCol t "Efficiency (%)" effs).rows.length = t.rows.length := by
    rw [ht1]
    simp [List.length_zip, hefflen]
  have hsslen : ss.length = t.rows.length := by
    rw [colE_ok_length hss, ht1rows]
  have hlvlen : lvls.length = t.rows.length := by
    rw [mapE_ok_length hlv, hsslen]
  have hfresh2b : "Performance_Level" ∉ (setCol t "Efficiency (%)" effs).header := by
    rw [ht1]
    simp only [List.mem_append, List.mem_singleton, not_or]
    exact ⟨hfresh2, by decide⟩
  have ht2 : setCol (setCol t "Efficiency (%)" effs) "Performance_Level" lvls =
      ⟨(setCol t "Efficiency (%)" effs).header ++ ["Performance_Level"],
       ((setCol t "Efficiency (%)" effs).rows.zip lvls).map (fun rv => rv.1 ++ [rv.2])⟩ :=
    setCol_fresh hfresh2b lvls
  have hhdr : (setCol (setCol t "Efficiency (%)" effs) "Performance_Level" lvls).header =
      t.header ++ ["Efficiency (%)", "Performance_Level"] := by
    rw [ht2, ht1]
    simp
  refine ⟨hhdr, ?_, ?_, ?_⟩
  · rw [toStore, List.head?_cons, hhdr]
  · rw [ht2, List.length_map, List.length_zip, ht1rows, hlvlen, min_self]
  · intro j r hjr
    have hjlt : j < t.rows.length := by
      obtain ⟨hlt, -⟩ := List.get?_eq_some.mp hjr
      exact hlt
    obtain ⟨e, he1, he2⟩ := zip_append_get? hjr (by omega : j < effs.length)
    have ht1get : (setCol t "Efficiency (%)" effs).rows.get? j = some (r ++ [e]) := by
      rw [ht1]
      exact he2
    obtain ⟨l, hl1, hl2⟩ := zip_append_get? ht1get (by omega : j < lvls.length)
    refine ⟨e, l, ?_⟩
    rw [ht2]
    simpa using hl2

/-- Claim C8, witness at the concrete ingested table. -/
theorem c8_store_format_witness :
    derivedT.header = ingestedT.header ++ ["Efficiency (%)", "Performance_Level"] ∧
    (toStore derivedT).head? =
      some (ingestedT.header ++ ["Efficiency (%)", "Performance_Level"]) ∧
    derivedT.rows.length = ingestedT.rows.length ∧
    (∀ j r, ingestedT.rows.get? j = some r →
      ∃ e l, derivedT.rows.get? j = some (r ++ [e, l])) :=
  c8_store_format_amended ingestedT derivedT (by decide) (by decide)
    (by with_unfolding_all decide)

/-- Claim C9, counterexample: during an in-place overwrite a reader can
observe the empty just-truncated file, which is neither the prior store
contents nor the new ones — the write is not atomic with respect to
readers. -/
theorem c9_materializer_counterexample :
    ([] : Store) ∈ writeStates oldStore smallT ∧
    ([] : Store) ≠ oldStore ∧ ([] : Store) ≠ toStore smallT := by
  refine ⟨?_, by decide, by with_unfolding_all decide⟩
  rw [writeStates]
  exact List.mem_cons_of_mem _ (by
    have h0 : (0 : ℕ) ∈ List.range ((toStore smallT).length + 1) := by
      rw [List.mem_range]
      omega
    simpa using List.mem_map_of_mem (fun i => (toStore smallT).take i) h0)

/-- Claim C9, amended: `to_csv` overwrites the store in place — truncate,
then write line by line — so the observable states of the file are the old
contents followed by every prefix of the new serialization (the empty file
and each half-written prefix included); only the final state is the complete
new store. No temporary-file-and-rename step exists. -/
theorem c9_materializer_amended (old : Store) (t : Table) :
    (writeStates old t).getLast? = some (toStore t) ∧
    ∀ i, i ≤ (toStore t).length → (toStore t).take i ∈ writeStates old t := by
  constructor
  · rw [writeStates, List.range_succ, List.map_append]
    simp only [List.map_cons, List.map_nil]
    rw [← List.cons_append, List.getLast?_concat, List.take_length]
  · intro i hi
    rw [writeStates]
    exact List.mem_cons_of_mem _
      (List.mem_map_of_mem _ (List.mem_range.mpr (by omega)))

/-- Claim C9, witness: the header-only prefix state is observable. -/
theorem c9_materializer_witness :
    (writeStates oldStore smallT).getLast? = some (toStore smallT) ∧
    (toStore smallT).take 1 ∈ writeStates oldStore smallT :=
  ⟨(c9_materializer_amended oldStore smallT).1,
   (c9_materializer_amended oldStore smallT).2 1 (by with_unfolding_all decide)⟩

/-- Claim C10: each of the three query operations is a pure function of the
materialized store's contents: two process states agreeing on the store —
whatever their module-level globals (dataframe and startup aggregates) —
produce identical responses for all three operations. -/
theorem c10_query_determinism (p1 p2 : ProcState) (h : p1.processed = p2.processed) :
    get_data_route p1 = get_data_route p2 ∧
    get_metrics_route p1 = get_metrics_route p2 ∧
    get_department_route p1 = get_department_route p2 := by
  rw [get_data_route, get_data_route, get_metrics_route, get_metrics_route,
    get_department_route, get_department_route, h]
  exact ⟨rfl, rfl, rfl⟩

/-- Claim C10, witness: two process states over the same store whose globals
differ in every field. -/
theorem c10_query_determinism_witness :
    get_data_route procA = get_data_route procB ∧
    get_metrics_route procA = get_metrics_route procB ∧
    get_department_route procA = get_department_route procB :=
  c10_query_determinism procA procB rfl

end PerfPulse
